import Mathlib

/-!
Verification of the STL AST-to-LaTeX renderer (`stl/ast2latex.py`).

The renderer is embedded shallowly: each Python template string and each
function of `ast2latex.py` becomes a Lean definition with the same name.
Python exceptions (the `KeyError` raised by a failed dictionary lookup,
which the specification calls `UnsupportedOperatorError`) are modelled with
`Except`.  Machine-level caveats of the Python source are reproduced
faithfully; in particular the non-raw string literals `'$\top$'`, `'$\bot$'`
and `'\neq'` of `node_label` contain the escape sequences tab, backspace and
newline, and are embedded with exactly those characters.
-/

/-- Modelled from the spec: the operator kinds of the AST (the `Operation`
enum of the `stl` package, which is not part of the sources under
verification).  `RELEASE` is the operator kind stubbed out in the renderer:
it has no entry in `node_styles` nor in `node_label`. -/
inductive Operation where
  | BOOL | PRED | AND | OR | IMPLIES | NOT | ALWAYS | EVENT | UNTIL | RELEASE
deriving DecidableEq, Repr

/-- Modelled from the spec: the relation kinds of predicate leaves (the
`RelOperation` enum of the `stl` package). -/
inductive RelOperation where
  | LT | LE | GT | GE | EQ | NQ
deriving DecidableEq, Repr

/-- Modelled from the spec: the AST node shapes of section 3 of the spec
(the `stl` package's formula classes are not part of the sources under
verification).  `release` is shaped like `until`, following the
commented-out `Operation.RELEASE` lines of the renderer.  The Python
attribute `variable` is a Lean keyword and is named `variable_name` here;
numeric attributes (`threshold`, `low`, `high`) are embedded as `Int`. -/
inductive AST where
  | bool (value : Bool)
  | pred (variable_name : String) (relation : RelOperation) (threshold : Int)
  | and (children : List AST)
  | or (children : List AST)
  | implies (left : AST) (right : AST)
  | not (child : AST)
  | always (low : Int) (high : Int) (child : AST)
  | event (low : Int) (high : Int) (child : AST)
  | until (low : Int) (high : Int) (left : AST) (right : AST)
  | release (low : Int) (high : Int) (left : AST) (right : AST)

/-- The `op` attribute of an AST node: its operator kind. -/
def AST.op : AST → Operation
  | .bool _ => .BOOL
  | .pred _ _ _ => .PRED
  | .and _ => .AND
  | .or _ => .OR
  | .implies _ _ => .IMPLIES
  | .not _ => .NOT
  | .always _ _ _ => .ALWAYS
  | .event _ _ _ => .EVENT
  | .until _ _ _ _ => .UNTIL
  | .release _ _ _ _ => .RELEASE

/-- The single error kind of the renderer.  The Python code raises `KeyError`
from the dictionary lookup `node_styles[ast.op]` (and would from
`node_label[ast.op]`); the specification names this condition
`UnsupportedOperatorError`. -/
inductive UnsupportedOperatorError where
  | keyError (op : Operation)
deriving DecidableEq, Repr

/-- The `node_styles` dictionary: operator kind to style tag.
`Operation.RELEASE` is absent (commented out in the source), modelled as
`none`. -/
def node_styles : Operation → Option String
  | .BOOL => some "leaf"
  | .PRED => some "leaf"
  | .AND => some "intermediate"
  | .OR => some "intermediate"
  | .IMPLIES => some "intermediate"
  | .NOT => some "intermediate"
  | .ALWAYS => some "intermediate"
  | .EVENT => some "intermediate"
  | .UNTIL => some "intermediate"
  | .RELEASE => none

/-- The dictionary lookup `node_styles[op]`: raises `KeyError` when the key
is absent. -/
def lookup_node_style (op : Operation) : Except UnsupportedOperatorError String :=
  match node_styles op with
  | some s => pure s
  | none => throw (UnsupportedOperatorError.keyError op)

/-- `template_node`: `node [{style}] {{{text}}} {children}`. -/
def template_node (style : String) (text : String) (children : String) : String :=
  "node [" ++ style ++ "] \x7b" ++ text ++ "\x7d " ++ children

/-- `template_child`: `child {{\n{node}\n}}`. -/
def template_child (node : String) : String :=
  "child \x7b\n" ++ node ++ "\n\x7d"

/-- `template_tree`: `\{tree}\n;\n`. -/
def template_tree (tree : String) : String :=
  "\\" ++ tree ++ "\n;\n"

/-- `template_figure`: the fixed tikzpicture wrapper around the rendered
tree. -/
def template_figure (tree : String) : String :=
  "\n\\begin\x7btikzpicture\x7d[->,>=stealth\x27,level/.style=\x7bsibling distance = 5cm/#1, level distance = 1.5cm\x7d]\n"
    ++ tree ++ "\n\\end\x7btikzpicture\x7d\n"

/-- `template_use_tikz_library`: `\usetikzlibrary{{{lib}}}`. -/
def template_use_tikz_library (lib : String) : String :=
  "\\usetikzlibrary\x7b" ++ lib ++ "\x7d"

/-- `template_style_block`: the `\tikzset` block wrapping the style lines. -/
def template_style_block (node_style_lines : String) : String :=
  "\\tikzset\x7b\n    treenode/.style = \x7balign=center, text centered\x7d,\n"
    ++ node_style_lines ++ "\n\x7d"

/-- The `default_node_styles` dictionary.  Its value strings are raw Python
literals that are never passed through `.format`, so the doubled braces
`{{`/`}}` stay doubled in the output verbatim. -/
def default_node_styles : String → Option String
  | "leaf" => some "    leaf/.style = \x7b\x7btreenode, ellipse, black, draw=black\x7d\x7d,"
  | "intermediate" => some "    intermediate/.style = \x7b\x7btreenode, ellipse, black, draw=black\x7d\x7d,"
  | _ => none

/-- Python's `str.join`: separator interleaved between the items. -/
def join_strings (sep : String) : List String → String
  | [] => ""
  | [x] => x
  | x :: xs => x ++ sep ++ join_strings sep xs

/-- `indent_size = 4`. -/
def indent_size : Nat := 4

/-- Python's `str.splitlines(keepends=True)`, at the level of character
lists.  The accumulator holds the current (unfinished) line reversed.  Only
`'\n'` occurs as a line break in the strings the renderer builds, so only
`'\n'` is treated as a line break. -/
def splitlinesAux : List Char → List Char → List (List Char)
  | [], acc => if acc.isEmpty then [] else [acc.reverse]
  | c :: rest, acc =>
    if c = '\n' then (acc.reverse ++ ['\n']) :: splitlinesAux rest []
    else splitlinesAux rest (c :: acc)

/-- Python's `str.join` at the level of character lists. -/
def join_chars (sep : List Char) : List (List Char) → List Char
  | [] => []
  | [x] => x
  | x :: xs => x ++ sep ++ join_chars sep xs

/-- The indentation step at the end of `tikz_tree`:

`if children: children = indent.join(('\n' + children.lstrip()).splitlines(True))`

with `indent = ' ' * (indent_size * depth)`.  `lstrip` is Python's removal
of leading whitespace, embedded with `Char.isWhitespace`. -/
def format_children (children : String) (depth : Nat) : String :=
  if children ≠ "" then
    let indent := List.replicate (indent_size * depth) ' '
    ⟨join_chars indent (splitlinesAux ('\n' :: children.data.dropWhile Char.isWhitespace) [])⟩
  else children

/-- `node_label[Operation.BOOL]`.  The Python literals `'$\top$'` and
`'$\bot$'` are not raw strings: `\t` is a tab and `\b` is a backspace
(`'\x08'`), which is reproduced here. -/
def bool_label (value : Bool) : String :=
  if value then "$\top$" else "$\x08ot$"

/-- The relation-symbol table of `node_label[Operation.PRED]`.  The Python
literals are not raw strings: `'\leq'` and `'\geq'` keep their backslash
(`\l` and `\g` are not escapes), while in `'\neq'` the `\n` is a newline
followed by `eq`, which is reproduced here. -/
def rel_symbols : RelOperation → String
  | .LT => "<"
  | .LE => "\\leq"
  | .GT => ">"
  | .GE => "\\geq"
  | .EQ => "="
  | .NQ => "\neq"

/-- The predicate label template `'${signal} {rop} {threshold}$'` after
substitution. -/
def pred_label (signal : String) (rop : String) (threshold : Int) : String :=
  "$" ++ signal ++ " " ++ rop ++ " " ++ toString threshold ++ "$"

/-- `node_label[Operation.AND]`. -/
def and_label : String := "$\\land$"

/-- `node_label[Operation.OR]`. -/
def or_label : String := "$\\lor$"

/-- `node_label[Operation.IMPLIES]`. -/
def implies_label : String := "$\\implies$"

/-- `node_label[Operation.NOT]`. -/
def not_label : String := "$\\lnot$"

/-- `node_label[Operation.ALWAYS]` after bound substitution. -/
def always_label (low high : Int) : String :=
  "$\\square_\x7b[" ++ toString low ++ ", " ++ toString high ++ "]\x7d$"

/-- `node_label[Operation.EVENT]` after bound substitution. -/
def event_label (low high : Int) : String :=
  "$\\lozenge_\x7b[" ++ toString low ++ ", " ++ toString high ++ "]\x7d$"

/-- `node_label[Operation.UNTIL]` after bound substitution. -/
def until_label (low high : Int) : String :=
  "$\\mathcal\x7bU\x7d_\x7b[" ++ toString low ++ ", " ++ toString high ++ "]\x7d$"

mutual

/-- `tikz_tree(ast, depth)`: style lookup, per-operator text and child
blocks, indentation, node template. -/
def tikz_tree (ast : AST) (depth : Nat) : Except UnsupportedOperatorError String := do
  let style ← lookup_node_style ast.op
  let tc ← tikz_text_children ast depth
  pure (template_node style tc.1 (format_children tc.2 depth))
termination_by (sizeOf ast, 1)

/-- The per-operator `text` and raw (pre-indentation) `children` strings of
the body of `tikz_tree`.  The `release` arm mirrors the absence of
`Operation.RELEASE` from `node_label`; it is unreachable through
`tikz_tree`, whose style lookup fails first. -/
def tikz_text_children (ast : AST) (depth : Nat) :
    Except UnsupportedOperatorError (String × String) :=
  match ast with
  | .bool v => pure (bool_label v, "")
  | .pred x r t => pure (pred_label x (rel_symbols r) t, "")
  | .and cs => do
    let blocks ← tikz_children cs (depth + 1)
    pure (and_label, join_strings "\n" blocks)
  | .or cs => do
    let blocks ← tikz_children cs (depth + 1)
    pure (or_label, join_strings "\n" blocks)
  | .implies l r => do
    let nl ← tikz_tree l (depth + 1)
    let nr ← tikz_tree r (depth + 1)
    pure (implies_label, join_strings "\n" [template_child nl, template_child nr])
  | .not c => do
    let node ← tikz_tree c (depth + 1)
    pure (not_label, template_child node)
  | .always lo hi c => do
    let node ← tikz_tree c (depth + 1)
    pure (always_label lo hi, template_child node)
  | .event lo hi c => do
    let node ← tikz_tree c (depth + 1)
    pure (event_label lo hi, template_child node)
  | .until lo hi l r => do
    let nl ← tikz_tree l (depth + 1)
    let nr ← tikz_tree r (depth + 1)
    pure (until_label lo hi, join_strings "\n" [template_child nl, template_child nr])
  | .release _ _ _ _ => throw (UnsupportedOperatorError.keyError Operation.RELEASE)
termination_by (sizeOf ast, 0)

/-- The generator `template_child.format(node=tikz_tree(ch, depth+1)) for ch
in ast.children`, materialised: one wrapped child block per child, in input
order.  (`'\n'.join` of the result is taken by the caller.) -/
def tikz_children (children : List AST) (depth : Nat) :
    Except UnsupportedOperatorError (List String) :=
  match children with
  | [] => pure []
  | c :: rest => do
    let node ← tikz_tree c depth
    let blocks ← tikz_children rest depth
    pure (template_child node :: blocks)
termination_by (sizeOf children, 0)

end

/-- The keys of the `node_styles` dictionary in insertion order. -/
def registered_operations : List Operation :=
  [.BOOL, .PRED, .AND, .OR, .IMPLIES, .NOT, .ALWAYS, .EVENT, .UNTIL]

/-- `node_styles.values()` in dictionary insertion order. -/
def node_styles_values : List String :=
  registered_operations.filterMap node_styles

/-- `set(node_styles.values())`, modelled as deduplication keeping first
occurrences.  (CPython iterates a set of strings in a hash-dependent order
that is fixed within one process; no claim depends on the order, and this
embedding fixes first-occurrence order.) -/
def styles_set : List String :=
  node_styles_values.eraseDups

/-- `tikz_node_styles()` with its default argument: the style block listing
the declaration of every style in `styles_set`.  The Python lookup
`node_style_options[s]` raises `KeyError` for an unknown key; on the actual
`styles_set` every lookup succeeds, so the `getD` default is never used. -/
def tikz_node_styles : String :=
  template_style_block
    (join_strings "\n" (styles_set.map fun s => (default_node_styles s).getD ""))

/-- `template_latex_standalone`: the full-document wrapper (preamble,
library lines, style block, document body). -/
def template_latex_standalone (tikz_libraries tikz_style figure : String) : String :=
  "\n\\documentclass\x7bstandalone\x7d\n\\usepackage\x7bamsmath\x7d\n\\usepackage\x7bamssymb\x7d\n\\usepackage\x7bamsfonts\x7d\n\\usepackage\x7btikz\x7d\n"
    ++ tikz_libraries ++ "\n\n" ++ tikz_style ++ "\n\n\\begin\x7bdocument\x7d\n"
    ++ figure ++ "\n\\end\x7bdocument\x7d\n"

/-- `ast2latex(ast, standalone, libraries)`.  The Python defaults are
`standalone=True`, `libraries=()`. -/
def ast2latex (ast : AST) (standalone : Bool) (libraries : List String) :
    Except UnsupportedOperatorError String := do
  let tree ← tikz_tree ast 1
  let tree := template_tree tree
  let figure := template_figure tree
  if standalone then
    let tikz_libraries := join_strings "\n" (libraries.map template_use_tikz_library)
    let style := tikz_node_styles
    pure (template_latex_standalone tikz_libraries style figure)
  else
    pure figure

mutual

/-- Whether the tree contains a node whose operator kind has no entry in the
style registry `node_styles` (equivalently, in `node_label`): exactly the
`release` nodes. -/
def hasUnregisteredOp : AST → Bool
  | .bool _ => false
  | .pred _ _ _ => false
  | .and cs => hasUnregisteredOpList cs
  | .or cs => hasUnregisteredOpList cs
  | .implies l r => hasUnregisteredOp l || hasUnregisteredOp r
  | .not c => hasUnregisteredOp c
  | .always _ _ c => hasUnregisteredOp c
  | .event _ _ c => hasUnregisteredOp c
  | .until _ _ l r => hasUnregisteredOp l || hasUnregisteredOp r
  | .release _ _ _ _ => true

/-- `hasUnregisteredOp` over a list of children. -/
def hasUnregisteredOpList : List AST → Bool
  | [] => false
  | c :: rest => hasUnregisteredOp c || hasUnregisteredOpList rest

end

mutual

/-- Modelled from the spec: "the set of distinct style tags actually used by
the tree" — the style tags of the operator kinds of the nodes of the tree
(here as a list with multiplicity; only membership is used). -/
def spec_used_styles : AST → List String
  | .bool _ => (node_styles Operation.BOOL).toList
  | .pred _ _ _ => (node_styles Operation.PRED).toList
  | .and cs => (node_styles Operation.AND).toList ++ spec_used_styles_list cs
  | .or cs => (node_styles Operation.OR).toList ++ spec_used_styles_list cs
  | .implies l r =>
    (node_styles Operation.IMPLIES).toList ++ spec_used_styles l ++ spec_used_styles r
  | .not c => (node_styles Operation.NOT).toList ++ spec_used_styles c
  | .always _ _ c => (node_styles Operation.ALWAYS).toList ++ spec_used_styles c
  | .event _ _ c => (node_styles Operation.EVENT).toList ++ spec_used_styles c
  | .until _ _ l r =>
    (node_styles Operation.UNTIL).toList ++ spec_used_styles l ++ spec_used_styles r
  | .release _ _ l r =>
    (node_styles Operation.RELEASE).toList ++ spec_used_styles l ++ spec_used_styles r

/-- `spec_used_styles` over a list of children. -/
def spec_used_styles_list : List AST → List String
  | [] => []
  | c :: rest => spec_used_styles c ++ spec_used_styles_list rest

end

/-- Whether an `Except` value is a success. -/
def isOkE {ε α : Type} : Except ε α → Bool
  | .ok _ => true
  | .error _ => false

/-- Whether `needle` occurs as a contiguous run inside `hay`. -/
def subOccurs (needle : List Char) : List Char → Bool
  | [] => needle.isEmpty
  | c :: rest => needle.isPrefixOf (c :: rest) || subOccurs needle rest

/-- Substring occurrence on strings. -/
def strContains (hay needle : String) : Bool :=
  subOccurs needle.data hay.data

/-- Whether the last character of the list is a newline. -/
def lastIsNewline : List Char → Bool
  | [] => false
  | [c] => c = '\n'
  | _ :: c :: rest => lastIsNewline (c :: rest)

@[simp] theorem except_pure {ε α : Type} (a : α) : (pure a : Except ε α) = Except.ok a := rfl

@[simp] theorem except_throw {ε α : Type} (e : ε) : (throw e : Except ε α) = Except.error e := rfl

@[simp] theorem except_ok_bind {ε α β : Type} (a : α) (f : α → Except ε β) :
    (Except.ok a >>= f : Except ε β) = f a := rfl

@[simp] theorem except_error_bind {ε α β : Type} (e : ε) (f : α → Except ε β) :
    (Except.error e >>= f : Except ε β) = Except.error e := rfl

@[simp] theorem except_ok_map {ε α β : Type} (f : α → β) (a : α) :
    (f <$> (Except.ok a : Except ε α)) = Except.ok (f a) := rfl

@[simp] theorem except_error_map {ε α β : Type} (f : α → β) (e : ε) :
    (f <$> (Except.error e : Except ε α)) = Except.error e := rfl

theorem string_ext {s t : String} (h : s.data = t.data) : s = t := by
  cases s
  cases t
  exact congrArg String.mk h

theorem string_append_left_cancel {a b c : String} (h : a ++ b = a ++ c) : b = c := by
  apply string_ext
  have h2 := congrArg String.data h
  rw [String.data_append, String.data_append] at h2
  exact List.append_cancel_left h2

theorem isOkE_iff_ok {ε α : Type} (x : Except ε α) : isOkE x = true ↔ ∃ a, x = Except.ok a := by
  cases x <;> simp [isOkE]

theorem isOkE_iff_error {ε α : Type} (x : Except ε α) :
    isOkE x = false ↔ ∃ e, x = Except.error e := by
  cases x <;> simp [isOkE]

theorem sizeOf_ast_pos (ast : AST) : 0 < sizeOf ast := by
  cases ast <;> simp_arith

theorem renderOk_aux : ∀ n : Nat,
    (∀ (ast : AST) (d : Nat), sizeOf ast ≤ n → isOkE (tikz_tree ast d) = !hasUnregisteredOp ast)
    ∧ (∀ (cs : List AST) (d : Nat), sizeOf cs ≤ n →
        isOkE (tikz_children cs d) = !hasUnregisteredOpList cs) := by
  intro n
  induction n with
  | zero =>
    constructor
    · intro ast d h
      exact absurd h (by have := sizeOf_ast_pos ast; omega)
    · intro cs d h
      exact absurd h (by cases cs <;> simp_arith at h ⊢)
  | succ n ih =>
    constructor
    · intro ast d h
      cases ast with
      | bool v =>
        simp [tikz_tree, tikz_text_children, lookup_node_style, node_styles, AST.op,
          hasUnregisteredOp, isOkE]
      | pred x r t =>
        simp [tikz_tree, tikz_text_children, lookup_node_style, node_styles, AST.op,
          hasUnregisteredOp, isOkE]
      | and cs =>
        have hcs : sizeOf cs ≤ n := by simp_arith at h; omega
        have hrec := ih.2 cs (d + 1) hcs
        cases hc : tikz_children cs (d + 1) with
        | ok blocks =>
          rw [hc] at hrec
          simp [isOkE] at hrec
          simp [tikz_tree, tikz_text_children, lookup_node_style, node_styles, AST.op,
            hasUnregisteredOp, isOkE, hc, hrec]
        | error e =>
          rw [hc] at hrec
          simp [isOkE] at hrec
          simp [tikz_tree, tikz_text_children, lookup_node_style, node_styles, AST.op,
            hasUnregisteredOp, isOkE, hc, hrec]
      | or cs =>
        have hcs : sizeOf cs ≤ n := by simp_arith at h; omega
        have hrec := ih.2 cs (d + 1) hcs
        cases hc : tikz_children cs (d + 1) with
        | ok blocks =>
          rw [hc] at hrec
          simp [isOkE] at hrec
          simp [tikz_tree, tikz_text_children, lookup_node_style, node_styles, AST.op,
            hasUnregisteredOp, isOkE, hc, hrec]
        | error e =>
          rw [hc] at hrec
          simp [isOkE] at hrec
          simp [tikz_tree, tikz_text_children, lookup_node_style, node_styles, AST.op,
            hasUnregisteredOp, isOkE, hc, hrec]
      | implies l r =>
        have hl : sizeOf l ≤ n := by simp_arith at h; omega
        have hr : sizeOf r ≤ n := by simp_arith at h; omega
        have hrecl := ih.1 l (d + 1) hl
        have hrecr := ih.1 r (d + 1) hr
        cases hcl : tikz_tree l (d + 1) with
        | ok nl =>
          rw [hcl] at hrecl
          simp [isOkE] at hrecl
          cases hcr : tikz_tree r (d + 1) with
          | ok nr =>
            rw [hcr] at hrecr
            simp [isOkE] at hrecr
            simp [tikz_tree, tikz_text_children, lookup_node_style, node_styles, AST.op,
              hasUnregisteredOp, isOkE, hcl, hcr, hrecl, hrecr]
          | error e =>
            rw [hcr] at hrecr
            simp [isOkE] at hrecr
            simp [tikz_tree, tikz_text_children, lookup_node_style, node_styles, AST.op,
              hasUnregisteredOp, isOkE, hcl, hcr, hrecr]
        | error e =>
          rw [hcl] at hrecl
          simp [isOkE] at hrecl
          simp [tikz_tree, tikz_text_children, lookup_node_style, node_styles, AST.op,
            hasUnregisteredOp, isOkE, hcl, hrecl]
      | not c =>
        have hc0 : sizeOf c ≤ n := by simp_arith at h; omega
        have hrec := ih.1 c (d + 1) hc0
        cases hc : tikz_tree c (d + 1) with
        | ok node =>
          rw [hc] at hrec
          simp [isOkE] at hrec
          simp [tikz_tree, tikz_text_children, lookup_node_style, node_styles, AST.op,
            hasUnregisteredOp, isOkE, hc, hrec]
        | error e =>
          rw [hc] at hrec
          simp [isOkE] at hrec
          simp [tikz_tree, tikz_text_children, lookup_node_style, node_styles, AST.op,
            hasUnregisteredOp, isOkE, hc, hrec]
      | always lo hi c =>
        have hc0 : sizeOf c ≤ n := by simp_arith at h; omega
        have hrec := ih.1 c (d + 1) hc0
        cases hc : tikz_tree c (d + 1) with
        | ok node =>
          rw [hc] at hrec
          simp [isOkE] at hrec
          simp [tikz_tree, tikz_text_children, lookup_node_style, node_styles, AST.op,
            hasUnregisteredOp, isOkE, hc, hrec]
        | error e =>
          rw [hc] at hrec
          simp [isOkE] at hrec
          simp [tikz_tree, tikz_text_children, lookup_node_style, node_styles, AST.op,
            hasUnregisteredOp, isOkE, hc, hrec]
      | event lo hi c =>
        have hc0 : sizeOf c ≤ n := by simp_arith at h; omega
        have hrec := ih.1 c (d + 1) hc0
        cases hc : tikz_tree c (d + 1) with
        | ok node =>
          rw [hc] at hrec
          simp [isOkE] at hrec
          simp [tikz_tree, tikz_text_children, lookup_node_style, node_styles, AST.op,
            hasUnregisteredOp, isOkE, hc, hrec]
        | error e =>
          rw [hc] at hrec
          simp [isOkE] at hrec
          simp [tikz_tree, tikz_text_children, lookup_node_style, node_styles, AST.op,
            hasUnregisteredOp, isOkE, hc, hrec]
      | «until» lo hi l r =>
        have hl : sizeOf l ≤ n := by simp_arith at h; omega
        have hr : sizeOf r ≤ n := by simp_arith at h; omega
        have hrecl := ih.1 l (d + 1) hl
        have hrecr := ih.1 r (d + 1) hr
        cases hcl : tikz_tree l (d + 1) with
        | ok nl =>
          rw [hcl] at hrecl
          simp [isOkE] at hrecl
          cases hcr : tikz_tree r (d + 1) with
          | ok nr =>
            rw [hcr] at hrecr
            simp [isOkE] at hrecr
            simp [tikz_tree, tikz_text_children, lookup_node_style, node_styles, AST.op,
              hasUnregisteredOp, isOkE, hcl, hcr, hrecl, hrecr]
          | error e =>
            rw [hcr] at hrecr
            simp [isOkE] at hrecr
            simp [tikz_tree, tikz_text_children, lookup_node_style, node_styles, AST.op,
              hasUnregisteredOp, isOkE, hcl, hcr, hrecr]
        | error e =>
          rw [hcl] at hrecl
          simp [isOkE] at hrecl
          simp [tikz_tree, tikz_text_children, lookup_node_style, node_styles, AST.op,
            hasUnregisteredOp, isOkE, hcl, hrecl]
      | release lo hi l r =>
        simp [tikz_tree, lookup_node_style, node_styles, AST.op, hasUnregisteredOp, isOkE]
    · intro cs d h
      cases cs with
      | nil => simp [tikz_children, hasUnregisteredOpList, isOkE]
      | cons c rest =>
        have hc0 : sizeOf c ≤ n := by simp_arith at h; omega
        have hrest : sizeOf rest ≤ n := by simp_arith at h; omega
        have hrec := ih.1 c d hc0
        have hrecs := ih.2 rest d hrest
        cases hc : tikz_tree c d with
        | ok node =>
          rw [hc] at hrec
          simp [isOkE] at hrec
          cases hcs : tikz_children rest d with
          | ok blocks =>
            rw [hcs] at hrecs
            simp [isOkE] at hrecs
            simp [tikz_children, hasUnregisteredOpList, isOkE, hc, hcs, hrec, hrecs]
          | error e =>
            rw [hcs] at hrecs
            simp [isOkE] at hrecs
            simp [tikz_children, hasUnregisteredOpList, isOkE, hc, hcs, hrecs]
        | error e =>
          rw [hc] at hrec
          simp [isOkE] at hrec
          simp [tikz_children, hasUnregisteredOpList, isOkE, hc, hrec]

theorem render_ok_of_registered (ast : AST) (d : Nat) (h : hasUnregisteredOp ast = false) :
    ∃ s, tikz_tree ast d = Except.ok s := by
  have := (renderOk_aux (sizeOf ast)).1 ast d (Nat.le_refl _)
  rw [h] at this
  simp at this
  exact (isOkE_iff_ok _).mp this

theorem render_error_of_unregistered (ast : AST) (d : Nat) (h : hasUnregisteredOp ast = true) :
    ∃ e, tikz_tree ast d = Except.error e := by
  have := (renderOk_aux (sizeOf ast)).1 ast d (Nat.le_refl _)
  rw [h] at this
  simp at this
  exact (isOkE_iff_error _).mp this

/-- C2: for every AST containing a node whose operator kind has no entry in
the style registry or label formatter (exactly the `release` nodes),
rendering raises `UnsupportedOperatorError` and produces no output: the
whole `ast2latex` call returns an error, never a partial document. -/
theorem claim_C2 (ast : AST) (standalone : Bool) (libraries : List String)
    (h : hasUnregisteredOp ast = true) :
    ∃ e, ast2latex ast standalone libraries = Except.error e := by
  obtain ⟨e, he⟩ := render_error_of_unregistered ast 1 h
  refine ⟨e, ?_⟩
  simp [ast2latex, he]

/-- Witness for C2 at a concrete tree containing a Release node. -/
theorem claim_C2_witness :
    hasUnregisteredOp (AST.release 0 1 (AST.bool true) (AST.bool true)) = true
    ∧ ∃ e, ast2latex (AST.release 0 1 (AST.bool true) (AST.bool true)) true [] =
        Except.error e :=
  ⟨by simp [hasUnregisteredOp],
   claim_C2 (AST.release 0 1 (AST.bool true) (AST.bool true)) true []
     (by simp [hasUnregisteredOp])⟩

/-- C9: rendering is deterministic.  For every AST whose operator kinds are
all registered, `ast2latex` succeeds with some document, and any call on an
identical AST with the same standalone flag and libraries sequence returns
the identical string.  (The embedding is a pure function; in particular the
style set `styles_set` is a fixed list, so no iteration-order
nondeterminism can arise.) -/
theorem claim_C9 (ast : AST) (standalone : Bool) (libraries : List String)
    (h : hasUnregisteredOp ast = false) :
    ∃ doc, ast2latex ast standalone libraries = Except.ok doc ∧
      ∀ (ast2 : AST) (standalone2 : Bool) (libraries2 : List String),
        ast2 = ast → standalone2 = standalone → libraries2 = libraries →
        ast2latex ast2 standalone2 libraries2 = Except.ok doc := by
  obtain ⟨s, hs⟩ := render_ok_of_registered ast 1 h
  cases standalone with
  | true =>
    refine ⟨template_latex_standalone
        (join_strings "\n" (libraries.map template_use_tikz_library))
        tikz_node_styles (template_figure (template_tree s)), ?_, ?_⟩
    · simp [ast2latex, hs]
    · intro a b c ha hb hc
      subst ha; subst hb; subst hc
      simp [ast2latex, hs]
  | false =>
    refine ⟨template_figure (template_tree s), ?_, ?_⟩
    · simp [ast2latex, hs]
    · intro a b c ha hb hc
      subst ha; subst hb; subst hc
      simp [ast2latex, hs]

/-- Witness for C9 at a concrete fully registered tree. -/
theorem claim_C9_witness :
    hasUnregisteredOp (AST.not (AST.bool true)) = false
    ∧ ∃ doc, ast2latex (AST.not (AST.bool true)) true ["arrows"] = Except.ok doc ∧
      ∀ (ast2 : AST) (standalone2 : Bool) (libraries2 : List String),
        ast2 = AST.not (AST.bool true) → standalone2 = true → libraries2 = ["arrows"] →
        ast2latex ast2 standalone2 libraries2 = Except.ok doc :=
  ⟨by simp [hasUnregisteredOp],
   claim_C9 (AST.not (AST.bool true)) true ["arrows"] (by simp [hasUnregisteredOp])⟩

/-- C10 (implicit): when `standalone` is false the `libraries` argument has
no effect on the output of `ast2latex`. -/
theorem claim_C10 (ast : AST) (l1 l2 : List String) :
    ast2latex ast false l1 = ast2latex ast false l2 := by
  cases h : tikz_tree ast 1 <;> simp [ast2latex, h]

theorem eval_bool_true : tikz_tree (AST.bool true) 1 = Except.ok "node [leaf] \x7b$\top$\x7d " := by
  simp [tikz_tree, tikz_text_children, lookup_node_style, node_styles, AST.op,
    bool_label, format_children, template_node]

theorem template_figure_head (x : String) :
    (template_figure x).data = '\n' :: '\\' :: 'b' ::
      (("egin\x7btikzpicture\x7d[->,>=stealth\x27,level/.style=\x7bsibling distance = 5cm/#1, level distance = 1.5cm\x7d]\n" : String).data
        ++ (x.data ++ ("\n\\end\x7btikzpicture\x7d\n" : String).data)) := by
  have e : ("\n\\begin\x7btikzpicture\x7d[->,>=stealth\x27,level/.style=\x7bsibling distance = 5cm/#1, level distance = 1.5cm\x7d]\n" : String).data
      = '\n' :: '\\' :: 'b' :: ("egin\x7btikzpicture\x7d[->,>=stealth\x27,level/.style=\x7bsibling distance = 5cm/#1, level distance = 1.5cm\x7d]\n" : String).data := rfl
  simp [template_figure, String.data_append, e, List.append_assoc]

theorem template_latex_standalone_head (a b c : String) :
    (template_latex_standalone a b c).data = '\n' :: '\\' :: 'd' ::
      (("ocumentclass\x7bstandalone\x7d\n\\usepackage\x7bamsmath\x7d\n\\usepackage\x7bamssymb\x7d\n\\usepackage\x7bamsfonts\x7d\n\\usepackage\x7btikz\x7d\n" : String).data
        ++ (a.data ++ (("\n\n" : String).data ++ (b.data ++ (("\n\n\\begin\x7bdocument\x7d\n" : String).data
        ++ (c.data ++ ("\n\\end\x7bdocument\x7d\n" : String).data)))))) := by
  have e : ("\n\\documentclass\x7bstandalone\x7d\n\\usepackage\x7bamsmath\x7d\n\\usepackage\x7bamssymb\x7d\n\\usepackage\x7bamsfonts\x7d\n\\usepackage\x7btikz\x7d\n" : String).data
      = '\n' :: '\\' :: 'd' :: ("ocumentclass\x7bstandalone\x7d\n\\usepackage\x7bamsmath\x7d\n\\usepackage\x7bamssymb\x7d\n\\usepackage\x7bamsfonts\x7d\n\\usepackage\x7btikz\x7d\n" : String).data := rfl
  simp [template_latex_standalone, String.data_append, e, List.append_assoc]

theorem figure_ne_standalone (x a b c : String) :
    template_figure x ≠ template_latex_standalone a b c := by
  intro heq
  have hd := congrArg String.data heq
  rw [template_figure_head, template_latex_standalone_head] at hd
  simp at hd

/-- C5: with `standalone = false`, `ast2latex` returns exactly the
picture-wrapped figure fragment; in particular the output is never of the
shape of the standalone document template, so it carries no document
preamble and no style-declaration block. -/
theorem claim_C5 (ast : AST) (libraries : List String) (t : String)
    (h : tikz_tree ast 1 = Except.ok t) :
    ast2latex ast false libraries = Except.ok (template_figure (template_tree t))
    ∧ ∀ libs2 style2 fig2,
        template_figure (template_tree t) ≠ template_latex_standalone libs2 style2 fig2 := by
  constructor
  · simp [ast2latex, h]
  · intro libs2 style2 fig2
    exact figure_ne_standalone _ _ _ _

/-- Witness for C5 at a concrete tree. -/
theorem claim_C5_witness :
    ast2latex (AST.bool true) false ["arrows"] =
      Except.ok (template_figure (template_tree "node [leaf] \x7b$\top$\x7d "))
    ∧ ∀ libs2 style2 fig2,
        template_figure (template_tree "node [leaf] \x7b$\top$\x7d ") ≠
          template_latex_standalone libs2 style2 fig2 :=
  claim_C5 (AST.bool true) ["arrows"] "node [leaf] \x7b$\top$\x7d " eval_bool_true

/-- C6: with `standalone = true`, `ast2latex` wraps the figure in the
standalone template whose library block has exactly one
`\usetikzlibrary` line per entry of `libraries`, in the order given. -/
theorem claim_C6 (ast : AST) (libraries : List String) (t : String)
    (h : tikz_tree ast 1 = Except.ok t) :
    ast2latex ast true libraries = Except.ok
      (template_latex_standalone
        (join_strings "\n" (libraries.map template_use_tikz_library))
        tikz_node_styles (template_figure (template_tree t)))
    ∧ (libraries.map template_use_tikz_library).length = libraries.length
    ∧ ∀ (i : Nat) (lib : String), libraries[i]? = some lib →
        (libraries.map template_use_tikz_library)[i]? =
          some ("\\usetikzlibrary\x7b" ++ lib ++ "\x7d") := by
  refine ⟨by simp [ast2latex, h], by simp, ?_⟩
  intro i lib hi
  simp [List.getElem?_map, hi, template_use_tikz_library]

/-- Witness for C6 with `libraries = ["arrows", "shapes"]`: both extension
lines are declared, in that order. -/
theorem claim_C6_witness :
    ast2latex (AST.bool true) true ["arrows", "shapes"] = Except.ok
      (template_latex_standalone
        (join_strings "\n" (["arrows", "shapes"].map template_use_tikz_library))
        tikz_node_styles (template_figure (template_tree "node [leaf] \x7b$\top$\x7d ")))
    ∧ ((["arrows", "shapes"] : List String).map template_use_tikz_library).length =
        (["arrows", "shapes"] : List String).length
    ∧ ∀ (i : Nat) (lib : String), (["arrows", "shapes"] : List String)[i]? = some lib →
        ((["arrows", "shapes"] : List String).map template_use_tikz_library)[i]? =
          some ("\\usetikzlibrary\x7b" ++ lib ++ "\x7d") :=
  claim_C6 (AST.bool true) ["arrows", "shapes"] "node [leaf] \x7b$\top$\x7d " eval_bool_true

/-- C7: a Predicate node renders as a leaf whose label is the variable, the
relation symbol from the fixed `rel_symbols` table and the threshold, in
that order, wrapped in `$...$` math mode; in particular
`Predicate(variable="x", relation=GT, threshold=10)` yields the leaf label
`$x > 10$`. -/
theorem claim_C7 (x : String) (r : RelOperation) (t : Int) (d : Nat) :
    tikz_tree (AST.pred x r t) d = Except.ok
      (template_node "leaf" ("$" ++ x ++ " " ++ rel_symbols r ++ " " ++ toString t ++ "$") "")
    ∧ tikz_tree (AST.pred "x" RelOperation.GT 10) 1 =
        Except.ok "node [leaf] \x7b$x > 10$\x7d " := by
  constructor
  · simp [tikz_tree, tikz_text_children, lookup_node_style, node_styles, AST.op,
      pred_label, format_children]
  · simp [tikz_tree, tikz_text_children, lookup_node_style, node_styles, AST.op,
      pred_label, rel_symbols, format_children, template_node]
    rfl

theorem styles_set_eq : styles_set = ["leaf", "intermediate"] := rfl

set_option maxRecDepth 100000 in
/-- Counterexample to C1 as stated: the tree `Bool(true)` uses only the
`leaf` style, yet the style block of the standalone output of `ast2latex`
declares the unused `intermediate` style — the block lists the whole
registry's styles, not the styles used by the tree. -/
theorem claim_C1_counterexample :
    spec_used_styles (AST.bool true) = ["leaf"]
    ∧ "intermediate" ∉ spec_used_styles (AST.bool true)
    ∧ ast2latex (AST.bool true) true [] = Except.ok
        (template_latex_standalone "" tikz_node_styles
          (template_figure (template_tree "node [leaf] \x7b$\top$\x7d ")))
    ∧ strContains
        (template_latex_standalone "" tikz_node_styles
          (template_figure (template_tree "node [leaf] \x7b$\top$\x7d ")))
        "intermediate/.style" = true := by
  have hs : spec_used_styles (AST.bool true) = ["leaf"] := by
    simp [spec_used_styles, node_styles]
  refine ⟨hs, ?_, ?_, ?_⟩
  · rw [hs]; decide
  · simp [ast2latex, eval_bool_true, join_strings]
  · decide

/-- C1 amended: in standalone mode the generated style block is the fixed
`tikz_node_styles`, identical for every tree; it contains exactly the
distinct styles of the whole registry (`leaf` and `intermediate`), without
duplicates, regardless of which styles the tree's nodes use and how often. -/
theorem claim_C1_amended (ast : AST) (libraries : List String) (doc : String)
    (h : ast2latex ast true libraries = Except.ok doc) :
    (∃ t, tikz_tree ast 1 = Except.ok t ∧
      doc = template_latex_standalone
        (join_strings "\n" (libraries.map template_use_tikz_library))
        tikz_node_styles (template_figure (template_tree t)))
    ∧ styles_set = ["leaf", "intermediate"]
    ∧ styles_set.Nodup
    ∧ (∀ s, s ∈ styles_set ↔ ∃ op, node_styles op = some s) := by
  refine ⟨?_, rfl, by decide, ?_⟩
  · cases ht : tikz_tree ast 1 with
    | ok t =>
      refine ⟨t, rfl, ?_⟩
      simp [ast2latex, ht] at h
      exact h.symm
    | error e =>
      simp [ast2latex, ht] at h
  · intro s
    constructor
    · intro hs
      rw [styles_set_eq] at hs
      simp at hs
      cases hs with
      | inl h1 => exact ⟨Operation.BOOL, by simp [node_styles, h1]⟩
      | inr h2 => exact ⟨Operation.AND, by simp [node_styles, h2]⟩
    · rintro ⟨op, hop⟩
      cases op <;> simp [node_styles] at hop <;> rw [styles_set_eq, ← hop] <;> decide

/-- Witness for the amended C1 at a concrete tree. -/
theorem claim_C1_witness :
    (∃ t, tikz_tree (AST.bool true) 1 = Except.ok t ∧
      template_latex_standalone "" tikz_node_styles
          (template_figure (template_tree "node [leaf] \x7b$\top$\x7d "))
        = template_latex_standalone
            (join_strings "\n" (([] : List String).map template_use_tikz_library))
            tikz_node_styles (template_figure (template_tree t)))
    ∧ styles_set = ["leaf", "intermediate"]
    ∧ styles_set.Nodup
    ∧ (∀ s, s ∈ styles_set ↔ ∃ op, node_styles op = some s) :=
  claim_C1_amended (AST.bool true) []
    (template_latex_standalone "" tikz_node_styles
      (template_figure (template_tree "node [leaf] \x7b$\top$\x7d ")))
    (by simp [ast2latex, eval_bool_true, join_strings])

theorem tikz_children_spec (cs : List AST) :
    ∀ (D : Nat) (blocks : List String),
      tikz_children cs D = Except.ok blocks →
      blocks.length = cs.length ∧
      ∀ (i : Nat) (hi : i < cs.length) (hb : i < blocks.length),
        ∃ sub, tikz_tree (cs.get ⟨i, hi⟩) D = Except.ok sub ∧
          blocks.get ⟨i, hb⟩ = template_child sub := by
  induction cs with
  | nil =>
    intro D blocks h
    simp [tikz_children] at h
    subst h
    exact ⟨rfl, by intro i hi hb; exact absurd hi (by simp)⟩
  | cons c rest ih =>
    intro D blocks h
    simp only [tikz_children] at h
    cases hc : tikz_tree c D with
    | error e =>
      rw [hc] at h
      simp at h
    | ok node =>
      rw [hc] at h
      cases hrest : tikz_children rest D with
      | error e =>
        rw [hrest] at h
        simp at h
      | ok blocks' =>
        rw [hrest] at h
        simp at h
        subst h
        obtain ⟨hlen, hidx⟩ := ih D blocks' hrest
        constructor
        · simp [hlen]
        · intro i hi hb
          cases i with
          | zero => exact ⟨node, hc, rfl⟩
          | succ n =>
            have hn : n < rest.length := by simpa using hi
            have hbn : n < blocks'.length := by simpa using hb
            obtain ⟨sub, h1, h2⟩ := hidx n hn hbn
            exact ⟨sub, h1, h2⟩

/-- C3: for an And or Or node whose children sequence has length `k ≥ 2`,
`tikz_tree` produces exactly `k` wrapped child blocks, one per child, in
the original sequence order, and joins them (newline-separated, then
indented) below the node. -/
theorem claim_C3 (cs : List AST) (d : Nat) (blocks : List String)
    (_hk : 2 ≤ cs.length)
    (h : tikz_children cs (d + 1) = Except.ok blocks) :
    blocks.length = cs.length
    ∧ (∀ (i : Nat) (hi : i < cs.length) (hb : i < blocks.length),
        ∃ sub, tikz_tree (cs.get ⟨i, hi⟩) (d + 1) = Except.ok sub ∧
          blocks.get ⟨i, hb⟩ = template_child sub)
    ∧ tikz_tree (AST.and cs) d =
        Except.ok (template_node "intermediate" and_label
          (format_children (join_strings "\n" blocks) d))
    ∧ tikz_tree (AST.or cs) d =
        Except.ok (template_node "intermediate" or_label
          (format_children (join_strings "\n" blocks) d)) := by
  obtain ⟨hlen, hidx⟩ := tikz_children_spec cs (d + 1) blocks h
  refine ⟨hlen, hidx, ?_, ?_⟩ <;>
    simp [tikz_tree, tikz_text_children, lookup_node_style, node_styles, AST.op, h]

theorem eval_children_pair :
    tikz_children [AST.bool true, AST.bool false] 2 =
      Except.ok ["child \x7b\nnode [leaf] \x7b$\top$\x7d \n\x7d",
        "child \x7b\nnode [leaf] \x7b$\x08ot$\x7d \n\x7d"] := by
  simp [tikz_children, tikz_tree, tikz_text_children, lookup_node_style, node_styles,
    AST.op, bool_label, format_children, template_node, template_child]

/-- Witness for C3 at a concrete two-child And/Or. -/
theorem claim_C3_witness :
    (["child \x7b\nnode [leaf] \x7b$\top$\x7d \n\x7d",
        "child \x7b\nnode [leaf] \x7b$\x08ot$\x7d \n\x7d"] : List String).length =
      ([AST.bool true, AST.bool false] : List AST).length
    ∧ (∀ (i : Nat) (hi : i < ([AST.bool true, AST.bool false] : List AST).length)
        (hb : i < (["child \x7b\nnode [leaf] \x7b$\top$\x7d \n\x7d",
          "child \x7b\nnode [leaf] \x7b$\x08ot$\x7d \n\x7d"] : List String).length),
        ∃ sub, tikz_tree (([AST.bool true, AST.bool false] : List AST).get ⟨i, hi⟩) (1 + 1) =
            Except.ok sub ∧
          (["child \x7b\nnode [leaf] \x7b$\top$\x7d \n\x7d",
            "child \x7b\nnode [leaf] \x7b$\x08ot$\x7d \n\x7d"] : List String).get ⟨i, hb⟩ =
            template_child sub)
    ∧ tikz_tree (AST.and [AST.bool true, AST.bool false]) 1 =
        Except.ok (template_node "intermediate" and_label
          (format_children (join_strings "\n"
            ["child \x7b\nnode [leaf] \x7b$\top$\x7d \n\x7d",
             "child \x7b\nnode [leaf] \x7b$\x08ot$\x7d \n\x7d"]) 1))
    ∧ tikz_tree (AST.or [AST.bool true, AST.bool false]) 1 =
        Except.ok (template_node "intermediate" or_label
          (format_children (join_strings "\n"
            ["child \x7b\nnode [leaf] \x7b$\top$\x7d \n\x7d",
             "child \x7b\nnode [leaf] \x7b$\x08ot$\x7d \n\x7d"]) 1)) :=
  claim_C3 [AST.bool true, AST.bool false] 1
    ["child \x7b\nnode [leaf] \x7b$\top$\x7d \n\x7d",
     "child \x7b\nnode [leaf] \x7b$\x08ot$\x7d \n\x7d"]
    (by simp) eval_children_pair

theorem template_child_data (s : String) :
    (template_child s).data = 'c' :: (("hild \x7b\n" : String).data ++ (s.data ++ ("\n\x7d" : String).data)) := by
  have e : ("child \x7b\n" : String).data = 'c' :: ("hild \x7b\n" : String).data := rfl
  simp [template_child, String.data_append, e, List.append_assoc]

theorem join_blocks_head (blocks : List String)
    (hb : ∀ b ∈ blocks, ∃ s, b = template_child s) (hne : blocks ≠ []) :
    (join_strings "\n" blocks).data.head? = some 'c' := by
  cases blocks with
  | nil => exact absurd rfl hne
  | cons b bs =>
    obtain ⟨s, hs⟩ := hb b (by simp)
    subst hs
    cases bs with
    | nil =>
      simp only [join_strings]
      rw [template_child_data s]
      rfl
    | cons b2 bs2 =>
      simp only [join_strings]
      rw [String.data_append, String.data_append, template_child_data s]
      simp

theorem ttc_raw_head (ast : AST) (d : Nat) (text raw : String)
    (h : tikz_text_children ast d = Except.ok (text, raw)) (hne : raw ≠ "") :
    raw.data.head? = some 'c' := by
  cases ast with
  | bool v =>
    simp [tikz_text_children] at h
    exact absurd h.2.symm hne
  | pred x r t =>
    simp [tikz_text_children] at h
    exact absurd h.2.symm hne
  | and cs =>
    simp only [tikz_text_children] at h
    cases hc : tikz_children cs (d + 1) with
    | error e => rw [hc] at h; simp at h
    | ok blocks =>
      rw [hc] at h
      simp at h
      have hbs : ∀ b ∈ blocks, ∃ s, b = template_child s := by
        obtain ⟨hlen, hidx⟩ := tikz_children_spec cs (d + 1) blocks hc
        intro b hbmem
        obtain ⟨⟨i, hi⟩, hg⟩ := List.get_of_mem hbmem
        have hilen : i < cs.length := by omega
        obtain ⟨sub, _, hsub⟩ := hidx i hilen hi
        exact ⟨sub, by rw [← hg]; exact hsub⟩
      have hbne : blocks ≠ [] := by
        intro hbe
        subst hbe
        rw [← h.2] at hne
        simp [join_strings] at hne
      have hu := join_blocks_head blocks hbs hbne
      rw [← h.2]
      exact hu
  | or cs =>
    simp only [tikz_text_children] at h
    cases hc : tikz_children cs (d + 1) with
    | error e => rw [hc] at h; simp at h
    | ok blocks =>
      rw [hc] at h
      simp at h
      have hbs : ∀ b ∈ blocks, ∃ s, b = template_child s := by
        obtain ⟨hlen, hidx⟩ := tikz_children_spec cs (d + 1) blocks hc
        intro b hbmem
        obtain ⟨⟨i, hi⟩, hg⟩ := List.get_of_mem hbmem
        have hilen : i < cs.length := by omega
        obtain ⟨sub, _, hsub⟩ := hidx i hilen hi
        exact ⟨sub, by rw [← hg]; exact hsub⟩
      have hbne : blocks ≠ [] := by
        intro hbe
        subst hbe
        rw [← h.2] at hne
        simp [join_strings] at hne
      have hu := join_blocks_head blocks hbs hbne
      rw [← h.2]
      exact hu
  | implies l r =>
    simp only [tikz_text_children] at h
    cases hl : tikz_tree l (d + 1) with
    | error e => rw [hl] at h; simp at h
    | ok nl =>
      rw [hl] at h
      cases hr : tikz_tree r (d + 1) with
      | error e => rw [hr] at h; simp at h
      | ok nr =>
        rw [hr] at h
        simp at h
        have hu := join_blocks_head [template_child nl, template_child nr]
          (by intro b hb; simp at hb; cases hb with
              | inl h1 => exact ⟨nl, h1⟩
              | inr h2 => exact ⟨nr, h2⟩) (by simp)
        rw [← h.2]
        exact hu
  | not c =>
    simp only [tikz_text_children] at h
    cases hc : tikz_tree c (d + 1) with
    | error e => rw [hc] at h; simp at h
    | ok node =>
      rw [hc] at h
      simp at h
      rw [← h.2, template_child_data node]
      rfl
  | always lo hi c =>
    simp only [tikz_text_children] at h
    cases hc : tikz_tree c (d + 1) with
    | error e => rw [hc] at h; simp at h
    | ok node =>
      rw [hc] at h
      simp at h
      rw [← h.2, template_child_data node]
      rfl
  | event lo hi c =>
    simp only [tikz_text_children] at h
    cases hc : tikz_tree c (d + 1) with
    | error e => rw [hc] at h; simp at h
    | ok node =>
      rw [hc] at h
      simp at h
      rw [← h.2, template_child_data node]
      rfl
  | «until» lo hi l r =>
    simp only [tikz_text_children] at h
    cases hl : tikz_tree l (d + 1) with
    | error e => rw [hl] at h; simp at h
    | ok nl =>
      rw [hl] at h
      cases hr : tikz_tree r (d + 1) with
      | error e => rw [hr] at h; simp at h
      | ok nr =>
        rw [hr] at h
        simp at h
        have hu := join_blocks_head [template_child nl, template_child nr]
          (by intro b hb; simp at hb; cases hb with
              | inl h1 => exact ⟨nl, h1⟩
              | inr h2 => exact ⟨nr, h2⟩) (by simp)
        rw [← h.2]
        exact hu
  | release lo hi l r =>
    simp [tikz_text_children] at h

theorem join_chars_cons (sep : List Char) (x : List Char) (ls : List (List Char)) :
    join_chars sep (x :: ls) = x ++ (ls.map (fun l => sep ++ l)).flatten := by
  induction ls generalizing x with
  | nil => simp [join_chars]
  | cons y ls ih => simp [join_chars, ih y, List.append_assoc]

/-- C8: for every node whose joined child-block text `raw` is nonempty, the
indentation step rewrites it into a leading empty line followed by every
line of `raw`, each re-indented by the fixed unit `indent_size` times the
node's depth `d`; the whitespace produced is a deterministic function of
the input. -/
theorem claim_C8 (ast : AST) (d : Nat) (text raw : String)
    (h : tikz_text_children ast d = Except.ok (text, raw)) (hne : raw ≠ "") :
    (format_children raw d).data =
      '\n' :: ((splitlinesAux raw.data []).map
        (fun line => List.replicate (indent_size * d) ' ' ++ line)).flatten
    ∧ ∀ raw2, raw2 = raw → format_children raw2 d = format_children raw d := by
  have hh := ttc_raw_head ast d text raw h hne
  constructor
  · cases hrd : raw.data with
    | nil => rw [hrd] at hh; simp at hh
    | cons a u =>
      rw [hrd] at hh
      simp at hh
      subst hh
      unfold format_children
      rw [if_pos hne]
      show join_chars (List.replicate (indent_size * d) ' ')
          (splitlinesAux ('\n' :: raw.data.dropWhile Char.isWhitespace) []) = _
      rw [hrd]
      have hw : Char.isWhitespace 'c' = false := rfl
      rw [List.dropWhile_cons, hw]
      simp only [Bool.false_eq_true, if_false]
      have hsplit : splitlinesAux ('\n' :: 'c' :: u) [] = ['\n'] :: splitlinesAux ('c' :: u) [] := by
        simp [splitlinesAux]
      rw [hsplit, join_chars_cons]
      simp
  · intro raw2 h2
    rw [h2]

theorem eval_not_ttc :
    tikz_text_children (AST.not (AST.bool true)) 1 =
      Except.ok ("$\\lnot$", "child \x7b\nnode [leaf] \x7b$\top$\x7d \n\x7d") := by
  simp [tikz_text_children, tikz_tree, lookup_node_style, node_styles, AST.op,
    bool_label, format_children, template_node, template_child, not_label]

/-- Witness for C8 at a concrete Not node with one child block. -/
theorem claim_C8_witness :
    (format_children "child \x7b\nnode [leaf] \x7b$\top$\x7d \n\x7d" 1).data =
      '\n' :: ((splitlinesAux ("child \x7b\nnode [leaf] \x7b$\top$\x7d \n\x7d" : String).data []).map
        (fun line => List.replicate (indent_size * 1) ' ' ++ line)).flatten
    ∧ ∀ raw2, raw2 = "child \x7b\nnode [leaf] \x7b$\top$\x7d \n\x7d" →
        format_children raw2 1 = format_children "child \x7b\nnode [leaf] \x7b$\top$\x7d \n\x7d" 1 :=
  claim_C8 (AST.not (AST.bool true)) 1 "$\\lnot$" "child \x7b\nnode [leaf] \x7b$\top$\x7d \n\x7d"
    eval_not_ttc (by decide)

theorem splitlinesAux_ne_nil :
    ∀ (cs acc : List Char), cs ≠ [] ∨ acc ≠ [] → splitlinesAux cs acc ≠ [] := by
  intro cs
  induction cs with
  | nil =>
    intro acc h
    have hacc : acc ≠ [] := by
      cases h with
      | inl h1 => exact absurd rfl h1
      | inr h2 => exact h2
    simp [splitlinesAux, hacc]
  | cons c rest ih =>
    intro acc h
    by_cases hc : c = '\n'
    · subst hc
      simp [splitlinesAux]
    · simp only [splitlinesAux, if_neg hc]
      exact ih (c :: acc) (Or.inr (by simp))

theorem lastIsNewline_cons_cons (a b : Char) (l : List Char) :
    lastIsNewline (a :: b :: l) = lastIsNewline (b :: l) := rfl

theorem lastIsNewline_append (u v : List Char) (h : v ≠ []) :
    lastIsNewline (u ++ v) = lastIsNewline v := by
  induction u with
  | nil => simp
  | cons a u ih =>
    cases huv : u ++ v with
    | nil => exact absurd (List.append_eq_nil.mp huv).2 h
    | cons b w =>
      rw [List.cons_append, huv, lastIsNewline_cons_cons, ← huv, ih]

theorem join_chars_cons_ne (sep : List Char) (x : List Char) (L : List (List Char))
    (h : L ≠ []) : join_chars sep (x :: L) = x ++ sep ++ join_chars sep L := by
  cases L with
  | nil => exact absurd rfl h
  | cons y ys => rfl

theorem splitlinesAux_newline (rest acc : List Char) :
    splitlinesAux ('\n' :: rest) acc = (acc.reverse ++ ['\n']) :: splitlinesAux rest [] := by
  simp [splitlinesAux]

theorem join_splitlines_flatMap (ind : List Char) :
    ∀ (cs acc : List Char), lastIsNewline cs = false →
      join_chars ind (splitlinesAux cs acc) =
        acc.reverse ++
          ((cs.map (fun c => if c = '\n' then '\n' :: ind else [c])).flatten) := by
  intro cs
  induction cs with
  | nil =>
    intro acc _
    cases hacc : acc with
    | nil => simp [splitlinesAux, join_chars]
    | cons a as => simp [splitlinesAux, join_chars]
  | cons c rest ih =>
    intro acc h
    by_cases hc : c = '\n'
    · subst hc
      cases hrest : rest with
      | nil => rw [hrest] at h; simp [lastIsNewline] at h
      | cons r rs =>
        rw [hrest] at h ih
        rw [lastIsNewline_cons_cons] at h
        have hne : splitlinesAux (r :: rs) [] ≠ [] :=
          splitlinesAux_ne_nil (r :: rs) [] (Or.inl (by simp))
        rw [splitlinesAux_newline, join_chars_cons_ne _ _ _ hne, ih ([]) h]
        simp [List.append_assoc]
    · simp only [splitlinesAux, if_neg hc]
      have h' : lastIsNewline rest = false := by
        cases hrest : rest with
        | nil => rfl
        | cons r rs => rw [hrest] at h; rw [← lastIsNewline_cons_cons c r rs]; exact h
      rw [ih (c :: acc) h']
      simp [List.append_assoc, hc]

theorem indent_flatMap_inj (ind : List Char) :
    ∀ (cs1 cs2 : List Char),
      ((cs1.map (fun c => if c = '\n' then '\n' :: ind else [c])).flatten) =
        ((cs2.map (fun c => if c = '\n' then '\n' :: ind else [c])).flatten) →
      cs1 = cs2 := by
  intro cs1
  induction cs1 with
  | nil =>
    intro cs2 h
    cases cs2 with
    | nil => rfl
    | cons c r => by_cases hc : c = '\n' <;> simp [hc] at h
  | cons c1 r1 ih =>
    intro cs2 h
    cases cs2 with
    | nil => by_cases hc : c1 = '\n' <;> simp [hc] at h
    | cons c2 r2 =>
      have hf : ∀ c : Char,
          (if c = '\n' then '\n' :: ind else [c]) = c :: (if c = '\n' then ind else []) := by
        intro c
        by_cases hc : c = '\n' <;> simp [hc]
      rw [List.map_cons, List.map_cons, List.flatten_cons, List.flatten_cons, hf c1, hf c2] at h
      simp only [List.cons_append] at h
      injection h with hc hrest
      subst hc
      rw [ih r2 (List.append_cancel_left hrest)]

theorem format_children_flatMap (s : String) (d : Nat)
    (hh : s.data.head? = some 'c') (hl : lastIsNewline s.data = false) :
    (format_children s d).data =
      '\n' :: (List.replicate (indent_size * d) ' ' ++
        ((s.data.map (fun c =>
          if c = '\n' then '\n' :: List.replicate (indent_size * d) ' ' else [c])).flatten)) := by
  cases hrd : s.data with
  | nil => rw [hrd] at hh; simp at hh
  | cons a u =>
    rw [hrd] at hh
    simp at hh
    subst hh
    have hne : s ≠ "" := by
      intro he
      rw [he] at hrd
      simp at hrd
    unfold format_children
    rw [if_pos hne]
    show (String.mk (join_chars (List.replicate (indent_size * d) ' ')
        (splitlinesAux ('\n' :: s.data.dropWhile Char.isWhitespace) []))).data = _
    have hw : Char.isWhitespace 'c' = false := rfl
    rw [hrd, List.dropWhile_cons, hw]
    simp only [Bool.false_eq_true, if_false]
    have hln : lastIsNewline ('\n' :: 'c' :: u) = false := by
      rw [lastIsNewline_cons_cons]
      rw [hrd] at hl
      exact hl
    have := join_splitlines_flatMap (List.replicate (indent_size * d) ' ')
      ('\n' :: 'c' :: u) [] hln
    simp only [List.reverse_nil, List.nil_append] at this
    show join_chars _ _ = _
    rw [this]
    simp [List.append_assoc]

theorem format_children_inj (s1 s2 : String) (d : Nat)
    (h1 : s1.data.head? = some 'c') (h2 : s2.data.head? = some 'c')
    (hl1 : lastIsNewline s1.data = false) (hl2 : lastIsNewline s2.data = false)
    (heq : format_children s1 d = format_children s2 d) : s1 = s2 := by
  have e1 := format_children_flatMap s1 d h1 hl1
  have e2 := format_children_flatMap s2 d h2 hl2
  have hd := congrArg String.data heq
  rw [e1, e2] at hd
  injection hd with _ hd2
  exact string_ext (indent_flatMap_inj _ _ _ (List.append_cancel_left hd2))

theorem lastIsNewline_template_child (s : String) :
    lastIsNewline (template_child s).data = false := by
  rw [template_child_data]
  have e1 : 'c' :: (("hild \x7b\n" : String).data ++ (s.data ++ ("\n\x7d" : String).data))
      = ['c'] ++ (("hild \x7b\n" : String).data ++ (s.data ++ ("\n\x7d" : String).data)) := rfl
  rw [e1, lastIsNewline_append _ _ (by simp),
    lastIsNewline_append _ _ (by simp),
    lastIsNewline_append _ _ (by simp)]
  rfl

theorem two_child_blocks_head (bl br : String) :
    (join_strings "\n" [template_child bl, template_child br]).data.head? = some 'c' :=
  join_blocks_head [template_child bl, template_child br]
    (by
      intro b hb
      simp at hb
      cases hb with
      | inl h1 => exact ⟨bl, h1⟩
      | inr h2 => exact ⟨br, h2⟩)
    (by simp)

theorem two_child_blocks_last (bl br : String) :
    lastIsNewline (join_strings "\n" [template_child bl, template_child br]).data = false := by
  have e : join_strings "\n" [template_child bl, template_child br]
      = template_child bl ++ "\n" ++ template_child br := by
    simp [join_strings]
  rw [e, String.data_append, String.data_append,
    lastIsNewline_append _ _ (by rw [template_child_data]; simp)]
  exact lastIsNewline_template_child br

theorem two_child_swap (label : String) (d : Nat) (bl br : String)
    (p : List Char) (c1 c2 : Char) (s1 s2 : List Char)
    (hbl : bl.data = p ++ c1 :: s1) (hbr : br.data = p ++ c2 :: s2) (hcc : c1 ≠ c2) :
    template_node "intermediate" label
        (format_children (join_strings "\n" [template_child bl, template_child br]) d)
      ≠ template_node "intermediate" label
        (format_children (join_strings "\n" [template_child br, template_child bl]) d) := by
  intro heq
  have hfc : format_children (join_strings "\n" [template_child bl, template_child br]) d
      = format_children (join_strings "\n" [template_child br, template_child bl]) d := by
    simp only [template_node] at heq
    exact string_append_left_cancel heq
  have heq2 : join_strings "\n" [template_child bl, template_child br]
      = join_strings "\n" [template_child br, template_child bl] :=
    format_children_inj _ _ d (two_child_blocks_head bl br) (two_child_blocks_head br bl)
      (two_child_blocks_last bl br) (two_child_blocks_last br bl) hfc
  have hd := congrArg String.data heq2
  simp only [join_strings, template_child, String.data_append, List.append_assoc] at hd
  rw [hbl, hbr] at hd
  simp only [List.append_assoc, List.cons_append, List.nil_append, List.cons.injEq,
    true_and] at hd
  have h1 := List.append_cancel_left hd
  injection h1 with h3 _
  exact hcc h3

set_option maxRecDepth 100000 in
/-- Counterexample to C4 as stated: swapping `left` and `right` does not
always change the output.  With `l = Predicate("x", GT, 10)` and
`r = Predicate("x > 10$} \n}\nchild {\nnode [leaf] {$x", GT, 10)` (a
predicate whose variable string reproduces the child-block delimiters),
the rendered block of `r` equals `bl ++ "\n}\nchild {\n" ++ bl` where `bl`
is the rendered block of `l`, so `Implies(l, r)` and `Implies(r, l)` render
to the identical string although `l ≠ r`. -/
theorem claim_C4_counterexample :
    AST.pred "x" RelOperation.GT 10 ≠
      AST.pred "x > 10$\x7d \n\x7d\nchild \x7b\nnode [leaf] \x7b$x" RelOperation.GT 10
    ∧ tikz_tree (AST.implies (AST.pred "x" RelOperation.GT 10)
          (AST.pred "x > 10$\x7d \n\x7d\nchild \x7b\nnode [leaf] \x7b$x" RelOperation.GT 10)) 1 =
        tikz_tree (AST.implies
          (AST.pred "x > 10$\x7d \n\x7d\nchild \x7b\nnode [leaf] \x7b$x" RelOperation.GT 10)
          (AST.pred "x" RelOperation.GT 10)) 1 := by
  constructor
  · intro hcontra
    injection hcontra with h1 h2 h3
    exact absurd h1 (by decide)
  · simp [tikz_tree, tikz_text_children, lookup_node_style, node_styles, AST.op,
      pred_label, rel_symbols, format_children, template_node, template_child, join_strings]
    rfl

/-- C4 amended: for every Implies or Until node whose children render
successfully, `tikz_tree` produces exactly two independently wrapped child
blocks, the block of `left` preceding the block of `right`; and swapping
`left` and `right` changes the output whenever the two rendered child
blocks differ at some position inside their common length (when one
rendered block is a strict extension of the other around the child-block
delimiters the two outputs can coincide, as the counterexample shows). -/
theorem claim_C4_amended (l r : AST) (lo hi : Int) (d : Nat) (bl br : String)
    (hl : tikz_tree l (d + 1) = Except.ok bl) (hr : tikz_tree r (d + 1) = Except.ok br) :
    tikz_tree (AST.implies l r) d = Except.ok
      (template_node "intermediate" implies_label
        (format_children (join_strings "\n" [template_child bl, template_child br]) d))
    ∧ tikz_tree (AST.until lo hi l r) d = Except.ok
      (template_node "intermediate" (until_label lo hi)
        (format_children (join_strings "\n" [template_child bl, template_child br]) d))
    ∧ ∀ (p : List Char) (c1 c2 : Char) (s1 s2 : List Char),
        bl.data = p ++ c1 :: s1 → br.data = p ++ c2 :: s2 → c1 ≠ c2 →
        tikz_tree (AST.implies l r) d ≠ tikz_tree (AST.implies r l) d
        ∧ tikz_tree (AST.until lo hi l r) d ≠ tikz_tree (AST.until lo hi r l) d := by
  have himp : tikz_tree (AST.implies l r) d = Except.ok
      (template_node "intermediate" implies_label
        (format_children (join_strings "\n" [template_child bl, template_child br]) d)) := by
    simp [tikz_tree, tikz_text_children, lookup_node_style, node_styles, AST.op, hl, hr]
  have himp2 : tikz_tree (AST.implies r l) d = Except.ok
      (template_node "intermediate" implies_label
        (format_children (join_strings "\n" [template_child br, template_child bl]) d)) := by
    simp [tikz_tree, tikz_text_children, lookup_node_style, node_styles, AST.op, hl, hr]
  have hunt : tikz_tree (AST.until lo hi l r) d = Except.ok
      (template_node "intermediate" (until_label lo hi)
        (format_children (join_strings "\n" [template_child bl, template_child br]) d)) := by
    simp [tikz_tree, tikz_text_children, lookup_node_style, node_styles, AST.op, hl, hr]
  have hunt2 : tikz_tree (AST.until lo hi r l) d = Except.ok
      (template_node "intermediate" (until_label lo hi)
        (format_children (join_strings "\n" [template_child br, template_child bl]) d)) := by
    simp [tikz_tree, tikz_text_children, lookup_node_style, node_styles, AST.op, hl, hr]
  refine ⟨himp, hunt, ?_⟩
  intro p c1 c2 s1 s2 hbl hbr hcc
  constructor
  · rw [himp, himp2]
    intro heq
    injection heq with heq2
    exact two_child_swap implies_label d bl br p c1 c2 s1 s2 hbl hbr hcc heq2
  · rw [hunt, hunt2]
    intro heq
    injection heq with heq2
    exact two_child_swap (until_label lo hi) d bl br p c1 c2 s1 s2 hbl hbr hcc heq2

theorem eval_pred_x2 :
    tikz_tree (AST.pred "x" RelOperation.GT 10) 2 = Except.ok "node [leaf] \x7b$x > 10$\x7d " := by
  simp [tikz_tree, tikz_text_children, lookup_node_style, node_styles, AST.op,
    pred_label, rel_symbols, format_children, template_node]
  rfl

theorem eval_bool_true_2 :
    tikz_tree (AST.bool true) 2 = Except.ok "node [leaf] \x7b$\top$\x7d " := by
  simp [tikz_tree, tikz_text_children, lookup_node_style, node_styles, AST.op,
    bool_label, format_children, template_node]

/-- Witness for the amended C4 at concrete children whose rendered blocks
differ inside their common length. -/
theorem claim_C4_witness :
    tikz_tree (AST.implies (AST.pred "x" RelOperation.GT 10) (AST.bool true)) 1 = Except.ok
      (template_node "intermediate" implies_label
        (format_children (join_strings "\n"
          [template_child "node [leaf] \x7b$x > 10$\x7d ",
           template_child "node [leaf] \x7b$\top$\x7d "]) 1))
    ∧ tikz_tree (AST.until 0 2 (AST.pred "x" RelOperation.GT 10) (AST.bool true)) 1 = Except.ok
      (template_node "intermediate" (until_label 0 2)
        (format_children (join_strings "\n"
          [template_child "node [leaf] \x7b$x > 10$\x7d ",
           template_child "node [leaf] \x7b$\top$\x7d "]) 1))
    ∧ (tikz_tree (AST.implies (AST.pred "x" RelOperation.GT 10) (AST.bool true)) 1 ≠
        tikz_tree (AST.implies (AST.bool true) (AST.pred "x" RelOperation.GT 10)) 1
      ∧ tikz_tree (AST.until 0 2 (AST.pred "x" RelOperation.GT 10) (AST.bool true)) 1 ≠
        tikz_tree (AST.until 0 2 (AST.bool true) (AST.pred "x" RelOperation.GT 10)) 1) := by
  have h := claim_C4_amended (AST.pred "x" RelOperation.GT 10) (AST.bool true) 0 2 1
    "node [leaf] \x7b$x > 10$\x7d " "node [leaf] \x7b$\top$\x7d " eval_pred_x2 eval_bool_true_2
  exact ⟨h.1, h.2.1, h.2.2 ("node [leaf] \x7b$" : String).data 'x' '\t'
    (" > 10$\x7d " : String).data ("op$\x7d " : String).data rfl rfl (by decide)⟩
